import Mathlib

/-!
ChefsEye recognition pipeline — verification development.

A shallow embedding of the product-recognition and receipt-OCR pipeline of the
ChefsEye repository, together with theorems settling the specification claims.

The embedding covers:
* the JS string primitives the services rely on (`toLowerCase`, `startsWith`,
  `includes`, `trim`, hex encoding of digests);
* `VisionCache` (`src/services/visionService.ts`): a bounded, TTL-limited map
  from content fingerprints to recognition results;
* `VisionService.detectProducts` and its provider cascade, with remote provider
  outcomes abstracted as environment data (each provider either fails — a
  timeout, a non-2xx status, a provider-reported error, a rejected promise —
  or yields a parsed response value);
* the response post-processing (`processVisionResponse`,
  `processProxyResponse`, `processHuggingFaceResponse`, `removeDuplicates`,
  label translation and the food-relevance filters);
* `AIVisionService.detectProducts` (`src/services/aiVisionService.ts`);
* `OCRService.extractTextFromImage` and `OCRService.parseReceiptText`.

Machine integers do not occur: sizes and timestamps are `Nat`, confidences and
monetary amounts are `ℚ` (the JS sources only manipulate them with order
comparisons and exact decimal literals).
-/

set_option maxHeartbeats 1000000

namespace ChefsEye

/-! ## JS character and string primitives

The services run on JS strings; the characters actually manipulated are ASCII
and Cyrillic (all in the basic multilingual plane, one UTF-16 unit each), so
`String.length`/`.charAt` agree with the character count and we model strings
as their character lists. `toLowerCase`/`toUpperCase` are modelled on the
ASCII and Cyrillic alphabets, which is exactly the alphabet of every string
literal in the sources. -/

/-- JS `String.toLowerCase`, restricted to ASCII and Cyrillic letters. -/
def jsToLowerChar (c : Char) : Char :=
  if 'A' ≤ c ∧ c ≤ 'Z' then Char.ofNat (c.toNat + 32)
  else if 'А' ≤ c ∧ c ≤ 'Я' then Char.ofNat (c.toNat + 32)
  else if c = 'Ё' then 'ё'
  else c

/-- JS `String.toUpperCase`, restricted to ASCII and Cyrillic letters. -/
def jsToUpperChar (c : Char) : Char :=
  if 'a' ≤ c ∧ c ≤ 'z' then Char.ofNat (c.toNat - 32)
  else if 'а' ≤ c ∧ c ≤ 'я' then Char.ofNat (c.toNat - 32)
  else if c = 'ё' then 'Ё'
  else c

/-- JS `s.toLowerCase()`. -/
def lowerStr (s : String) : String := ⟨s.data.map jsToLowerChar⟩

/-- Does the second list start with the first one? -/
def charsHaveStart : List Char → List Char → Bool
  | [], _ => true
  | _ :: _, [] => false
  | p :: ps, c :: cs => p = c && charsHaveStart ps cs

/-- JS `s.startsWith(pat)`. -/
def jsStartsWith (s pat : String) : Bool := charsHaveStart pat.data s.data

/-- Does the second list contain the first one as a contiguous run? -/
def containsChars (needle : List Char) : List Char → Bool
  | [] => charsHaveStart needle []
  | c :: cs => charsHaveStart needle (c :: cs) || containsChars needle cs

/-- JS `hay.includes(needle)` (case sensitive). -/
def strIncludes (hay needle : String) : Bool := containsChars needle.data hay.data

/-- Case-insensitive containment: how a literal regex with the `i` flag and no
anchors, e.g. `/ПЯТЕРОЧКА/i.test(line)`, behaves. -/
def strIncludesCI (hay needle : String) : Bool :=
  strIncludes (lowerStr hay) (lowerStr needle)

/-- The whitespace characters relevant to the sources (JS `\s` restricted to
the characters that can occur in the strings in play). -/
def isSpaceChar (c : Char) : Bool :=
  c = ' ' || c = '\t' || c = '\n' || c = '\r'

def isDigitChar (c : Char) : Bool := '0' ≤ c && c ≤ '9'

/-- A character matched by the amount class `[\d.,]`. -/
def isAmountChar (c : Char) : Bool := isDigitChar c || c = '.' || c = ','

/-- JS `s.trim()`. -/
def trimChars (cs : List Char) : List Char :=
  ((cs.dropWhile isSpaceChar).reverse.dropWhile isSpaceChar).reverse

def jsTrim (s : String) : String := ⟨trimChars s.data⟩

/-- JS `b.toString(16).padStart(2, '0')` for a digest byte. -/
def padHex2 (ds : List Char) : List Char :=
  List.replicate (2 - ds.length) '0' ++ ds

/-- Hex encoding of a digest, as produced by
`hashArray.map(b => b.toString(16).padStart(2, '0')).join('')`. -/
def hexEncodeBytes (bs : List Nat) : String :=
  String.join (bs.map fun b => ⟨padHex2 (Nat.toDigits 16 b)⟩)

/-! ## `VisionCache` (src/services/visionService.ts, lines 76–142)

The backing `Map<string, {result; timestamp}>` is modelled as an association
list in insertion order — exactly a JS `Map`'s iteration order: `set` of an
existing key updates it in place, `set` of a new key appends, `delete`
removes, `forEach` iterates in that order. The model is generic in the key
type (the service instantiates it with `String` hashes); `Date.now()` is the
explicit `now` argument. -/

structure CacheEntry (α : Type) where
  result : α
  timestamp : Nat
deriving DecidableEq, Repr

/-- The underlying `Map`, in insertion order. -/
abbrev CacheMap (κ α : Type) := List (κ × CacheEntry α)

/-- `Map.get` (first — and in well-formed states only — binding of the key). -/
def mapGet [DecidableEq κ] (k : κ) : CacheMap κ α → Option (CacheEntry α)
  | [] => none
  | (k0, e) :: rest => if k0 = k then some e else mapGet k rest

/-- `Map.set`: update in place, or append a fresh binding. -/
def mapSet [DecidableEq κ] (k : κ) (e : CacheEntry α) : CacheMap κ α → CacheMap κ α
  | [] => [(k, e)]
  | (k0, e0) :: rest => if k0 = k then (k, e) :: rest else (k0, e0) :: mapSet k e rest

/-- `Map.delete`. -/
def mapDelete [DecidableEq κ] (k : κ) (c : CacheMap κ α) : CacheMap κ α :=
  c.filter (fun p => decide (p.1 ≠ k))

namespace VisionCache

/-- `MAX_SIZE = 100` — at most 100 cache entries. -/
def MAX_SIZE : Nat := 100

/-- `TTL = 30 * 60 * 1000` — entries live 30 minutes. -/
def TTL : Nat := 30 * 60 * 1000

/-- `cleanup()`: drop every entry with `now - timestamp > TTL`. -/
def cleanup [DecidableEq κ] (now : Nat) (c : CacheMap κ α) : CacheMap κ α :=
  c.filter (fun p => decide ¬ (now - p.2.timestamp > TTL))

/-- Loop body of `getOldestKey`: `oldestTimestamp` starts at `Infinity`, so
after the first entry the accumulator is always a real (key, timestamp) pair;
the comparison is strict, so the earliest-iterated minimal entry wins. -/
def getOldestAux (best : κ × Nat) : CacheMap κ α → κ × Nat
  | [] => best
  | (k, e) :: rest => getOldestAux (if e.timestamp < best.2 then (k, e.timestamp) else best) rest

/-- `getOldestKey()`. -/
def getOldestKey [DecidableEq κ] : CacheMap κ α → Option κ
  | [] => none
  | (k, e) :: rest => some (getOldestAux (k, e.timestamp) rest).1

/-- The capacity check of `set` (lines 86–91): when the (cleaned) map is at
capacity, delete the oldest entry; `if (oldestKey)` skips the (unreachable)
case of an empty map reporting no oldest key. -/
def evictIfFull [DecidableEq κ] (c1 : CacheMap κ α) : CacheMap κ α :=
  if MAX_SIZE ≤ c1.length then
    match getOldestKey c1 with
    | some oldestKey => mapDelete oldestKey c1
    | none => c1
  else c1

/-- `set(key, value)`: cleanup, evict the oldest entry when at capacity,
then insert with the current timestamp. -/
def set [DecidableEq κ] (now : Nat) (k : κ) (v : α) (c : CacheMap κ α) : CacheMap κ α :=
  mapSet k ⟨v, now⟩ (evictIfFull (cleanup now c))

/-- `get(key)`: a fresh entry is returned as is; a stale entry is deleted as a
side effect of the lookup and reported absent. -/
def get [DecidableEq κ] (now : Nat) (k : κ) (c : CacheMap κ α) :
    Option α × CacheMap κ α :=
  match mapGet k c with
  | some e => if now - e.timestamp < TTL then (some e.result, c) else (none, mapDelete k c)
  | none => (none, c)

end VisionCache


/-! ## Canonical product detections and label normalization
(src/services/visionService.ts) -/

structure BoundingBox where
  x : ℚ
  y : ℚ
  width : ℚ
  height : ℚ
deriving DecidableEq, Repr

structure ProductDetection where
  name : String
  confidence : ℚ
  boundingBox : Option BoundingBox := none
deriving DecidableEq, Repr

structure VisionResult where
  products : List ProductDetection
  imageDescription : Option String := none
deriving DecidableEq, Repr

/-- The `translations` table of `translateLabel` (visionService.ts lines 863–920). -/
def translations : List (String × String) := [
  ("apple", "яблоко"),
  ("banana", "банан"),
  ("orange", "апельсин"),
  ("lemon", "лимон"),
  ("pear", "груша"),
  ("grape", "виноград"),
  ("peach", "персик"),
  ("plum", "слива"),
  ("cherry", "вишня"),
  ("strawberry", "клубника"),
  ("blueberry", "черника"),
  ("raspberry", "малина"),
  ("pineapple", "ананас"),
  ("mango", "манго"),
  ("kiwi", "киви"),
  ("watermelon", "арбуз"),
  ("melon", "дыня"),
  ("tomato", "помидор"),
  ("cucumber", "огурец"),
  ("carrot", "морковь"),
  ("onion", "лук"),
  ("potato", "картофель"),
  ("cabbage", "капуста"),
  ("pepper", "перец"),
  ("bell pepper", "болгарский перец"),
  ("garlic", "чеснок"),
  ("lettuce", "салат"),
  ("spinach", "шпинат"),
  ("broccoli", "брокколи"),
  ("cauliflower", "цветная капуста"),
  ("zucchini", "кабачок"),
  ("eggplant", "баклажан"),
  ("pumpkin", "тыква"),
  ("corn", "кукуруза"),
  ("bean", "фасоль"),
  ("pea", "горох"),
  ("celery", "сельдерей"),
  ("milk", "молоко"),
  ("cheese", "сыр"),
  ("yogurt", "йогурт"),
  ("butter", "масло сливочное"),
  ("cream", "сливки"),
  ("sour cream", "сметана"),
  ("cottage cheese", "творог"),
  ("kefir", "кефир"),
  ("yogurt drink", "питьевой йогурт"),
  ("chicken", "курица"),
  ("beef", "говядина"),
  ("pork", "свинина"),
  ("turkey", "индейка"),
  ("duck", "утка"),
  ("lamb", "баранина"),
  ("sausage", "колбаса"),
  ("salami", "салями"),
  ("ham", "ветчина"),
  ("bacon", "бекон"),
  ("minced meat", "фарш"),
  ("meatball", "фрикаделька"),
  ("fish", "рыба"),
  ("salmon", "лосось"),
  ("tuna", "тунец"),
  ("trout", "форель"),
  ("cod", "треска"),
  ("herring", "сельдь"),
  ("shrimp", "креветки"),
  ("prawn", "креветки"),
  ("crab", "краб"),
  ("lobster", "омар"),
  ("mussel", "мидия"),
  ("oyster", "устрица"),
  ("squid", "кальмар"),
  ("octopus", "осьминог"),
  ("caviar", "икра"),
  ("bread", "хлеб"),
  ("rice", "рис"),
  ("pasta", "макароны"),
  ("flour", "мука"),
  ("sugar", "сахар"),
  ("salt", "соль"),
  ("oil", "масло растительное"),
  ("vinegar", "уксус"),
  ("honey", "мед"),
  ("jam", "варенье"),
  ("chocolate", "шоколад"),
  ("cookie", "печенье"),
  ("cracker", "крекер"),
  ("cereal", "хлопья"),
  ("oatmeal", "овсянка"),
  ("buckwheat", "гречка"),
  ("millet", "пшено"),
  ("barley", "перловка"),
  ("water", "вода"),
  ("juice", "сок"),
  ("tea", "чай"),
  ("coffee", "кофе"),
  ("soda", "газировка"),
  ("lemonade", "лимонад"),
  ("wine", "вино"),
  ("beer", "пиво"),
  ("vodka", "водка"),
  ("egg", "яйцо"),
  ("nut", "орех"),
  ("almond", "миндаль"),
  ("walnut", "грецкий орех"),
  ("peanut", "арахис"),
  ("hazelnut", "фундук"),
  ("spice", "специя"),
  ("herb", "трава"),
  ("sauce", "соус"),
  ("ketchup", "кетчуп"),
  ("mayonnaise", "майонез"),
  ("mustard", "горчица"),
  ("ice cream", "мороженое"),
  ("cake", "торт"),
  ("pie", "пирог"),
  ("pizza", "пицца"),
  ("sandwich", "сэндвич"),
  ("burger", "бургер"),
  ("soup", "суп"),
  ("salad", "салат"),
  ("pancake", "блин")
]

/-- `foodKeywords` of `isFoodRelated` (lines 936–958). -/
def foodKeywords : List String := [
  "food", "fruit", "vegetable", "drink", "meat", "dairy",
  "grain", "bakery", "seafood", "nut", "spice", "herb",
  "sauce", "condiment", "beverage", "snack", "sweet", "dessert",
  "canned", "frozen", "fresh", "organic", "natural", "healthy",
  "еда", "фрукт", "овощ", "напиток", "мясо", "молочный",
  "зерно", "выпечка", "морепродукт", "орех", "специя", "трава",
  "соус", "приправа", "закуска", "сладость", "десерт", "консерва",
  "замороженный", "свежий", "органический", "натуральный", "здоровый", "apple",
  "orange", "banana", "cucumber", "tomato", "potato", "carrot",
  "onion", "garlic", "chicken", "beef", "pork", "fish",
  "salmon", "tuna", "shrimp", "crab", "lobster", "milk",
  "cheese", "yogurt", "butter", "cream", "egg", "bread",
  "rice", "pasta", "water", "juice", "tea", "coffee",
  "wine", "beer", "chocolate", "cake", "cookie", "яблоко",
  "апельсин", "банан", "огурец", "помидор", "картофель", "морковь",
  "лук", "чеснок", "курица", "говядина", "свинина", "рыба",
  "лосось", "тунец", "креветка", "краб", "омар", "молоко",
  "сыр", "йогурт", "масло", "сливки", "яйцо", "хлеб",
  "рис", "макароны", "вода", "сок", "чай", "кофе",
  "вино", "пиво", "шоколад", "торт", "печенье"
]

/-- `nonFoodKeywords` of `isFoodRelated` (lines 963–980). -/
def nonFoodKeywords : List String := [
  "furniture", "appliance", "electronic", "device", "tool", "equipment",
  "machine", "clothing", "shoe", "accessory", "jewelry", "watch",
  "bag", "purse", "building", "house", "room", "wall",
  "floor", "ceiling", "window", "door", "vehicle", "car",
  "bike", "motorcycle", "airplane", "boat", "ship", "animal",
  "pet", "dog", "cat", "bird", "insect", "plant",
  "tree", "flower", "person", "people", "human", "face",
  "hand", "eye", "hair", "body", "text", "word",
  "letter", "number", "symbol", "sign", "logo", "brand",
  "container", "packaging", "box", "bottle", "can", "jar",
  "bag", "wrapper", "мебель", "техника", "электроника", "устройство",
  "инструмент", "оборудование", "машина", "одежда", "обувь", "аксессуар",
  "украшение", "часы", "сумка", "кошелек", "здание", "дом",
  "комната", "стена", "пол", "потолок", "окно", "дверь",
  "транспорт", "машина", "велосипед", "мотоцикл", "самолет", "лодка",
  "корабль", "животное", "питомец", "собака", "кошка", "птица",
  "насекомое", "растение", "дерево", "цветок", "человек", "люди",
  "лицо", "рука", "глаз", "волосы", "тело", "текст",
  "слово", "буква", "цифра", "символ", "знак", "логотип",
  "бренд", "контейнер", "упаковка", "коробка", "бутылка", "банка",
  "баночка", "пакет", "обертка"
]

/-- `genericCategories` of `isGenericCategory` (lines 993–1021). -/
def genericCategories : List String := [
  "food", "meal", "dish", "product", "ingredient", "item",
  "stuff", "thing", "produce", "grocery", "provision", "supply",
  "commodity", "material", "еда", "блюдо", "продукт", "ингредиент",
  "предмет", "вещь", "штука", "продукция", "бакалея", "провизия",
  "запас", "товар", "материал", "container", "packaging", "box",
  "bottle", "can", "jar", "bag", "wrapper", "package",
  "packet", "carton", "tube", "tin", "pot", "vessel",
  "receptacle", "контейнер", "упаковка", "коробка", "бутылка", "банка",
  "баночка", "пакет", "обертка", "упаковочный", "тара", "емкость",
  "сосуд", "посудина", "вместилище", "utensil", "tool", "equipment",
  "appliance", "device", "instrument", "gadget", "kitchenware", "cookware",
  "tableware", "cutlery", "silverware", "flatware", "посуд", "инструмент",
  "оборудование", "прибор", "устройство", "гаджет", "кухонная утварь", "посуда",
  "столовые приборы", "ножи", "вилки", "ложки", "object", "subject",
  "entity", "element", "component", "part", "piece", "unit",
  "module", "section", "segment", "portion", "fragment", "объект",
  "субъект", "сущность", "элемент", "компонент", "часть", "кусок",
  "единица", "модуль", "секция", "сегмент", "порция", "фрагмент",
  "unknown", "unidentified", "miscellaneous", "various", "assorted", "mixed",
  "неизвестный", "неопознанный", "разный", "разнообразный", "смешанный", "ассорти"
]

/-- `specificFoods` of `isSpecificFood` (lines 1051–1113). -/
def specificFoods : List String := [
  "яблоко", "апельсин", "банан", "лимон", "груша", "виноград",
  "персик", "абрикос", "слива", "киви", "манго", "ананас",
  "клубника", "малина", "черника", "ежевика", "арбуз", "дыня",
  "вишня", "черешня", "айва", "гранат", "папайя", "гуава",
  "личи", "мандарин", "грейпфрут", "лайм", "финик", "инжир",
  "apple", "orange", "banana", "lemon", "pear", "grape",
  "peach", "apricot", "plum", "kiwi", "mango", "pineapple",
  "strawberry", "raspberry", "blueberry", "blackberry", "watermelon", "melon",
  "cherry", "quince", "pomegranate", "papaya", "guava", "lychee",
  "tangerine", "grapefruit", "lime", "date", "fig", "помидор",
  "огурец", "морковь", "лук", "картофель", "капуста", "перец",
  "баклажан", "кабачок", "тыква", "свекла", "редис", "редиска",
  "чеснок", "имбирь", "шпинат", "салат", "петрушка", "укроп",
  "базилик", "сельдерей", "редис", "редиска", "редисочка", "редиска",
  "редис", "редиска", "редис", "редиска", "редис", "tomato",
  "cucumber", "carrot", "onion", "potato", "cabbage", "pepper",
  "eggplant", "zucchini", "pumpkin", "beet", "radish", "garlic",
  "ginger", "spinach", "lettuce", "parsley", "dill", "basil",
  "celery", "молоко", "сыр", "йогурт", "сметана", "творог",
  "кефир", "масло сливочное", "ряженка", "простокваша", "сливки", "творожный сыр",
  "моцарелла", "брынза", "сгущенное молоко", "йогурт питьевой", "кефирный продукт", "молочный коктейль",
  "milk", "cheese", "yogurt", "sour cream", "cottage cheese", "kefir",
  "butter", "cream", "mozzarella", "feta", "курица", "говядина",
  "свинина", "индейка", "утка", "гусь", "кролик", "телятина",
  "баранина", "колбаса", "сосиски", "ветчина", "бекон", "сало",
  "фарш", "пельмени", "котлеты", "шашлык", "стейк", "грудинка",
  "chicken", "beef", "pork", "turkey", "duck", "goose",
  "rabbit", "veal", "lamb", "sausage", "sausages", "ham",
  "bacon", "lard", "minced meat", "dumplings", "cutlets", "shashlik",
  "steak", "рыба", "лосось", "тунец", "селедка", "скумбрия",
  "камбала", "треска", "окунь", "щука", "карп", "креветки",
  "кальмары", "мидии", "устрицы", "краб", "икра", "крабовые палочки",
  "морской коктейль", "осьминог", "fish", "salmon", "tuna", "herring",
  "mackerel", "flounder", "cod", "perch", "pike", "carp",
  "shrimp", "squid", "mussels", "oysters", "crab", "caviar",
  "crab sticks", "seafood mix", "octopus", "хлеб", "рис", "макароны",
  "мука", "сахар", "соль", "масло растительное", "крупа гречневая", "овсяные хлопья",
  "манная крупа", "пшено", "перловка", "кукурузная крупа", "горох", "фасоль",
  "чечевица", "нут", "соя", "кукуруза", "bread", "rice",
  "pasta", "flour", "sugar", "salt", "vegetable oil", "buckwheat",
  "oatmeal", "semolina", "millet", "pearl barley", "corn grits", "peas",
  "beans", "lentils", "chickpeas", "soy", "corn", "вода",
  "сок", "чай", "кофе", "газировка", "лимонад", "квас",
  "компот", "морс", "минеральная вода", "энергетик", "спортивное питание", "молочный коктейль",
  "смузи", "какао", "горячий шоколад", "вино", "пиво", "водка",
  "water", "juice", "tea", "coffee", "soda", "lemonade",
  "kvass", "compote", "fruit drink", "mineral water", "energy drink", "sports nutrition",
  "milkshake", "smoothie", "cocoa", "hot chocolate", "wine", "beer",
  "vodka", "шоколад", "печенье", "торт", "пирожное", "конфеты",
  "вафли", "пряники", "зефир", "мармелад", "халва", "пастила",
  "кекс", "булочка", "круассан", "пончик", "пирог", "пирожок",
  "бублик", "сушки", "сухари", "chocolate", "cookie", "cake",
  "pastry", "candy", "waffles", "gingerbread", "marshmallow", "marmalade",
  "halva", "pastila", "cupcake", "bun", "croissant", "donut",
  "pie", "pirozhok", "bagel", "sushki", "crackers", "мороженое",
  "пельмени", "овощи замороженные", "ягоды замороженные", "фрукты замороженные", "рыба замороженная", "мясо замороженное",
  "полуфабрикаты", "блинчики", "вареники", "голубцы", "котлеты замороженные", "пицца замороженная",
  "ice cream", "dumplings", "frozen vegetables", "frozen berries", "frozen fruits", "frozen fish",
  "frozen meat", "semi-finished products", "pancakes", "vareniki", "stuffed cabbage", "frozen cutlets",
  "frozen pizza", "овощные консервы", "фруктовые консервы", "рыбные консервы", "мясные консервы", "джем",
  "варенье", "мед", "сгущенное молоко", "томатная паста", "кукуруза консервированная", "горошек консервированный",
  "фасоль консервированная", "canned vegetables", "canned fruits", "canned fish", "canned meat", "jam",
  "preserves", "honey", "condensed milk", "tomato paste", "canned corn", "canned peas",
  "canned beans"
]

/-- `foodIndicators` of `isPotentialFood` (lines 1129–1141). -/
def foodIndicators : List String := [
  "round", "oval", "long", "thin", "thick", "small",
  "large", "fresh", "ripe", "raw", "cooked", "круглый",
  "овальный", "длинный", "тонкий", "толстый", "маленький", "большой",
  "свежий", "спелый", "сырой", "готовый", "red", "green",
  "yellow", "orange", "brown", "white", "pink", "purple",
  "blue", "красный", "зеленый", "желтый", "оранжевый", "коричневый",
  "белый", "розовый", "фиолетовый", "синий", "smooth", "rough",
  "bumpy", "shiny", "matte", "soft", "hard", "crunchy",
  "juicy", "гладкий", "шероховатый", "бугристый", "блестящий", "матовый",
  "мягкий", "твердый", "хрустящий", "сочный"
]

/-- `similarProducts` of `isSimilarProduct` (lines 1163–1170). -/
def similarProducts : List (String × String) := [
  ("яблоко", "apple"),
  ("апельсин", "orange"),
  ("банан", "banana"),
  ("лимон", "lemon"),
  ("помидор", "tomato"),
  ("огурец", "cucumber"),
  ("морковь", "carrot"),
  ("лук", "onion"),
  ("картофель", "potato"),
  ("капуста", "cabbage"),
  ("перец", "pepper"),
  ("баклажан", "eggplant"),
  ("молоко", "milk"),
  ("сыр", "cheese"),
  ("йогурт", "yogurt"),
  ("сметана", "sour cream"),
  ("курица", "chicken"),
  ("говядина", "beef"),
  ("свинина", "pork"),
  ("рыба", "fish"),
  ("хлеб", "bread"),
  ("рис", "rice"),
  ("макароны", "pasta"),
  ("сахар", "sugar")
]

/-- `capitalizeRussian` (lines 927–932): if the text contains a Cyrillic
letter (`/[а-яё]/i`), capitalize the first character and lowercase the rest. -/
def isCyrillicTestChar (c : Char) : Bool :=
  ('а' ≤ c && c ≤ 'я') || c = 'ё' || ('А' ≤ c && c ≤ 'Я') || c = 'Ё'

def capitalizeRussian (text : String) : String :=
  if text.data.any isCyrillicTestChar then
    match text.data with
    | [] => text
    | c :: rest => ⟨jsToUpperChar c :: rest.map jsToLowerChar⟩
  else text

def lookupTranslation (k : String) : List (String × String) → Option String
  | [] => none
  | (k0, v) :: rest => if k0 = k then some v else lookupTranslation k rest

/-- `translateLabel` (lines 862–924). The `translations` object literal has no
duplicate keys, so a first-match lookup coincides with the JS object lookup. -/
def translateLabel (label : String) : String :=
  match lookupTranslation (lowerStr label) translations with
  | some t => t
  | none => capitalizeRussian label

/-- `isFoodRelated` (lines 935–989): excluded by a non-food keyword, otherwise
must contain a food keyword. -/
def isFoodRelated (label : String) : Bool :=
  let lowerLabel := lowerStr label
  if nonFoodKeywords.any (fun keyword => strIncludes lowerLabel keyword) then false
  else foodKeywords.any (fun keyword => strIncludes lowerLabel keyword)

/-- `isGenericCategory` (lines 992–1036): names shorter than 4 characters or
purely numeric are generic, as is anything containing a generic term. -/
def isGenericCategory (name : String) : Bool :=
  let lowerName := lowerStr name
  if lowerName.data.length < 4 then true
  else if lowerName.data.all isDigitChar then true
  else genericCategories.any (fun category => strIncludes lowerName category)

/-- `isSpecificFood` (lines 1050–1117). -/
def isSpecificFood (name : String) : Bool :=
  specificFoods.any (fun food => strIncludes (lowerStr name) food)

/-- `isPotentialFood` (lines 1120–1145). -/
def isPotentialFood (name : String) : Bool :=
  let lowerName := lowerStr name
  if isGenericCategory lowerName then false
  else foodIndicators.any (fun indicator => strIncludes lowerName indicator)

/-- `isSimilarProduct` (lines 1148–1176). -/
def isSimilarProduct (name1 name2 : String) : Bool :=
  let lower1 := lowerStr name1
  let lower2 := lowerStr name2
  if lower1 = lower2 then true
  else if strIncludes lower1 lower2 || strIncludes lower2 lower1 then true
  else similarProducts.any (fun p =>
    (strIncludes lower1 p.1 && strIncludes lower2 p.2) ||
    (strIncludes lower1 p.2 && strIncludes lower2 p.1))

/-- Loop body of `removeDuplicates` (lines 1039–1047): the JS `filter` keeps a
candidate exactly when its lower-cased name has not been seen yet. -/
def removeDupAux (seen : List String) : List ProductDetection → List ProductDetection
  | [] => []
  | p :: ps =>
    let key := lowerStr p.name
    if key ∈ seen then removeDupAux seen ps
    else p :: removeDupAux (key :: seen) ps

/-- `removeDuplicates` (lines 1039–1047). -/
def removeDuplicates (products : List ProductDetection) : List ProductDetection :=
  removeDupAux [] products

/-- One step of `Array.prototype.sort` with comparator
`(a, b) => b.confidence - a.confidence`: a stable sort descending by
confidence, modelled as insertion sort (insert before the first strictly
smaller element). -/
def insertByConfidence (p : ProductDetection) :
    List ProductDetection → List ProductDetection
  | [] => [p]
  | q :: qs =>
    if q.confidence ≤ p.confidence then p :: q :: qs
    else q :: insertByConfidence p qs

def sortByConfidenceDesc (ps : List ProductDetection) : List ProductDetection :=
  ps.foldr insertByConfidence []

/-! ## `processVisionResponse` and friends (lines 457–670)

The raw Google Vision response facets are embedded structurally; a missing
string field is the empty string (both are falsy to the JS guards). The four
`forEach` loops push onto / mutate the shared `products` array; they are
modelled as folds threading the list. -/

structure NormalizedVertex where
  x : ℚ := 0
  y : ℚ := 0
deriving DecidableEq, Repr

structure LocalizedObjectAnnotation where
  name : String := ""
  score : ℚ := 0
  boundingPoly : Option (List NormalizedVertex) := none
deriving DecidableEq, Repr

structure LabelAnnotation where
  description : String := ""
  score : ℚ := 0
deriving DecidableEq, Repr

structure WebEntity where
  description : String := ""
  score : ℚ := 0
deriving DecidableEq, Repr

structure TextAnnotation where
  description : String := ""
deriving DecidableEq, Repr

structure VisionResponse where
  localizedObjectAnnotations : List LocalizedObjectAnnotation := []
  labelAnnotations : List LabelAnnotation := []
  webEntities : List WebEntity := []
  textAnnotations : List TextAnnotation := []
deriving Repr

/-- The bounding box computed from `obj.boundingPoly` (lines 477–482); a
missing vertex makes the JS arithmetic `NaN`, collapsed to `0` by `|| 0`. -/
def objBoundingBox (obj : LocalizedObjectAnnotation) : Option BoundingBox :=
  obj.boundingPoly.map fun vs =>
    { x := ((vs.get? 0).map (fun v => v.x * 100)).getD 0
      y := ((vs.get? 0).map (fun v => v.y * 100)).getD 0
      width :=
        match vs.get? 1, vs.get? 0 with
        | some v1, some v0 => (v1.x - v0.x) * 100
        | _, _ => 0
      height :=
        match vs.get? 2, vs.get? 0 with
        | some v2, some v0 => (v2.y - v0.y) * 100
        | _, _ => 0 }

/-- In-place mutation of the first array element the JS `find` returned. -/
def updateFirst (pred : α → Bool) (f : α → α) : List α → List α
  | [] => []
  | x :: xs => if pred x then f x :: xs else x :: updateFirst pred f xs

/-- The `localizedObjectAnnotations` loop (lines 467–487). -/
def addObjectDetections (objs : List LocalizedObjectAnnotation)
    (products : List ProductDetection) : List ProductDetection :=
  objs.foldl (fun acc obj =>
    if obj.name ≠ "" ∧ obj.score > 0.5 ∧ isFoodRelated obj.name = true then
      let translatedName := translateLabel obj.name
      if isGenericCategory translatedName = false then
        acc ++ [⟨translatedName, obj.score, objBoundingBox obj⟩]
      else acc
    else acc) products

/-- The `labelAnnotations` loop (lines 490–515): a label matching an existing
product (case-insensitively or via the synonym table) raises that product's
confidence when the label scores higher; otherwise the label is appended. -/
def addLabelDetections (labels : List LabelAnnotation)
    (products : List ProductDetection) : List ProductDetection :=
  labels.foldl (fun acc label =>
    if label.description ≠ "" ∧ label.score > 0.65 ∧
        isFoodRelated label.description = true then
      let translatedName := translateLabel label.description
      if isGenericCategory translatedName = false ∧
          isSpecificFood translatedName = true then
        let sameProduct := fun (p : ProductDetection) =>
          (lowerStr p.name == lowerStr translatedName) ||
            isSimilarProduct p.name translatedName
        match acc.find? sameProduct with
        | none => acc ++ [⟨translatedName, label.score, none⟩]
        | some existingProduct =>
          if label.score > existingProduct.confidence then
            updateFirst sameProduct (fun p => { p with confidence := label.score }) acc
          else acc
      else acc
    else acc) products

/-- The `webDetection.webEntities` loop (lines 518–537). -/
def addWebDetections (entities : List WebEntity)
    (products : List ProductDetection) : List ProductDetection :=
  entities.foldl (fun acc entity =>
    if entity.description ≠ "" ∧ entity.score > 0.7 ∧
        isFoodRelated entity.description = true then
      let translatedName := translateLabel entity.description
      if isGenericCategory translatedName = false ∧
          isSpecificFood translatedName = true then
        if (acc.find? (fun p => lowerStr p.name == lowerStr translatedName)).isNone = true ∧
            acc.length < 10 then
          acc ++ [⟨translatedName, entity.score * 0.9, none⟩]
        else acc
      else acc
    else acc) products

/-- The `textAnnotations.slice(0, 10)` loop (lines 540–560). -/
def addTextDetections (texts : List TextAnnotation)
    (products : List ProductDetection) : List ProductDetection :=
  (texts.take 10).foldl (fun acc text =>
    if text.description ≠ "" ∧ isPotentialFood text.description = true then
      let translatedName := translateLabel text.description
      if isSpecificFood translatedName = true ∧
          isGenericCategory translatedName = false then
        if (acc.find? (fun p => lowerStr p.name == lowerStr translatedName)).isNone = true ∧
            acc.length < 12 then
          acc ++ [⟨translatedName, 0.6, none⟩]
        else acc
      else acc
    else acc) products

/-- JS `s || d` for strings. -/
def jsOrString (s d : String) : String := if s = "" then d else s

/-- `processVisionResponse` (lines 458–575): merge the four facets, drop
duplicates, sort by descending confidence and keep the 12 most confident. -/
def processVisionResponse (response : VisionResponse) : VisionResult :=
  let products : List ProductDetection := []
  let products := addObjectDetections response.localizedObjectAnnotations products
  let products := addLabelDetections response.labelAnnotations products
  let products := addWebDetections response.webEntities products
  let products := addTextDetections response.textAnnotations products
  let uniqueProducts := removeDuplicates products
  let finalProducts := (sortByConfidenceDesc uniqueProducts).take 12
  { products := finalProducts
    imageDescription := some (jsOrString
      (((response.textAnnotations.get? 0).map (fun t => t.description)).getD "")
      ("Распознано " ++ toString finalProducts.length ++ " продуктов")) }

/-- A single detection of a proxy response (`data.detections`). -/
structure ProxyDetection where
  label : String := ""
  confidence : ℚ := 0
  bbox : Option BoundingBox := none
deriving DecidableEq, Repr

structure ProxyResponseData where
  detections : List ProxyDetection := []
  description : String := ""
deriving Repr

/-- `processProxyResponse` (lines 578–597): keep detections above confidence
0.5, translate, and only remove duplicates — no sorting, no truncation. -/
def processProxyResponse (data : ProxyResponseData) : VisionResult :=
  let products := data.detections.foldl (fun acc det =>
    if det.label ≠ "" ∧ det.confidence > 0.5 then
      acc ++ [⟨translateLabel det.label, det.confidence, det.bbox⟩]
    else acc) []
  { products := removeDuplicates products
    imageDescription := some (jsOrString data.description "Распознанные продукты") }

structure HFItem where
  label : String := ""
  score : ℚ := 0
deriving DecidableEq, Repr

/-- `processHuggingFaceResponse` (lines 648–670): filter by score and food
relevance, translate, and only remove duplicates — no sorting, no truncation. -/
def processHuggingFaceResponse (data : List HFItem) : VisionResult :=
  let products := data.foldl (fun acc item =>
    if item.label ≠ "" ∧ item.score > 0.6 then
      let translatedName := translateLabel item.label
      if isFoodRelated translatedName = true ∧
          isGenericCategory translatedName = false then
        acc ++ [⟨translatedName, item.score, none⟩]
      else acc
    else acc) []
  { products := removeDuplicates products
    imageDescription := some "Распознанные продукты через современную нейросеть" }


/-! ## `VisionService.detectProducts` (lines 146–211)

The remote tiers are I/O: each one either fails (timeout via `AbortController`,
non-2xx status, provider-reported error, rejected promise) or yields a parsed
`VisionResult`. A call's environment fixes these outcomes, the availability of
`crypto.subtle`, the demo randomness and `Date.now()`; `detectProducts` is
then a pure state transformer on the cache. The outcome records whether any
remote provider was contacted during the call. -/

/-- The caller-visible part of a JS `File`: declared MIME type, byte size,
file name and content bytes. -/
structure FileModel where
  type : String
  size : Nat
  name : String
  bytes : List Nat

/-- What each remote tier of `callRealVisionAPI` would do during this call. -/
structure ApiEnv where
  /-- Google Cloud Vision: `some r` when the HTTP call succeeded, reported no
  error, and parsed to `r` via `processVisionResponse`; `none` when it threw,
  returned non-2xx, reported `data.error`, or had no `responses[0]`. -/
  primary : Option VisionResult
  /-- One entry per `FALLBACK_URLS` proxy, parsed via `processProxyResponse`;
  `none` for a proxy that failed. -/
  proxies : List (Option VisionResult)
  /-- Hugging Face, parsed via `processHuggingFaceResponse`. -/
  huggingFace : Option VisionResult
  /-- `createRealisticSimulation` — it never fails: an image-analysis error
  falls back to `createBasicSimulation` internally (lines 673–692). -/
  simulation : VisionResult

structure CallEnv where
  api : ApiEnv
  /-- `true` when reading the file for the API call fails (`fileToBase64`
  rejecting, line 327) — the only way `callRealVisionAPI` itself rejects. -/
  apiThrows : Bool
  /-- The randomized result `demoVisionProcessing` (lines 213–275) would
  produce during this call. -/
  demo : VisionResult
  /-- Is `crypto.subtle.digest` available? -/
  cryptoAvailable : Bool
  /-- The SHA-256 primitive over byte lists. -/
  digest : List Nat → List Nat
  /-- `Date.now()` during this call. -/
  now : Nat

/-- `VisionService.generateFileHash` (lines 304–323): with `crypto.subtle`
available, the hex-encoded SHA-256 of the file bytes; otherwise the weak
`simple-hash` fingerprint from size, file name and current time. (The `catch`
branch producing `fallback-hash-...` is unreachable in the model, where
reading the bytes cannot throw.) -/
def generateFileHash (env : CallEnv) (file : FileModel) : String :=
  if env.cryptoAvailable then hexEncodeBytes (env.digest file.bytes)
  else "simple-hash-" ++ toString file.size ++ "-" ++ file.name ++ "-" ++ toString env.now

/-- The proxy loop (lines 394–436): first proxy that answered and parsed to a
non-empty product list; failing proxies and empty results are skipped. -/
def firstProxyResult : List (Option VisionResult) → Option VisionResult
  | [] => none
  | none :: rest => firstProxyResult rest
  | some r :: rest => if r.products.isEmpty then firstProxyResult rest else some r

/-- The tail of the cascade: proxies, then Hugging Face (lines 600–645; its
parsed result is returned even when empty), then the local simulation. -/
def callProxiesAndBeyond (api : ApiEnv) : VisionResult :=
  match firstProxyResult api.proxies with
  | some r => r
  | none =>
    match api.huggingFace with
    | some r => r
    | none => api.simulation

/-- `callRealVisionAPI` (lines 326–442): primary Google Vision first — a
failure, or a successful parse with an empty product list (thrown at line
388), drops into the catch running the rest of the cascade. Every tier
failure is caught inside the cascade, so the function is total. -/
def callRealVisionAPI (api : ApiEnv) : VisionResult :=
  match api.primary with
  | some r => if r.products.isEmpty then callProxiesAndBeyond api else r
  | none => callProxiesAndBeyond api

/-- `VISION_ERRORS` (lines 16–22). Only `INVALID_FILE` is ever attached to a
`VisionServiceError` that reaches a caller. -/
inductive VisionErrorCode where
  | INVALID_FILE
  | API_UNAVAILABLE
  | NETWORK_ERROR
  | PROCESSING_ERROR
  | CACHE_ERROR
deriving DecidableEq, Repr

/-- The module-level `visionCache` state. -/
abbrev VisionCacheState := CacheMap String VisionResult

structure DetectOutcome where
  /-- The returned `VisionResult`, or the thrown `VisionServiceError` code. -/
  result : Except VisionErrorCode VisionResult
  cache : VisionCacheState
  /-- Whether any remote provider was contacted during the call. -/
  providerCalled : Bool

/-- `VisionService.detectProducts` (lines 146–211). Validation first (MIME
type, then the 10MB bound); then the cache probe — `has` immediately followed
by `get` performs the same lookup twice, and on a hit the first lookup does
not mutate, so one `VisionCache.get` models the pair; then the provider
cascade; a non-empty result is cached (hash recomputed) and returned, an
empty result or a rejected `callRealVisionAPI` degrades to the demo result.
The outer catch rethrows `VisionServiceError`s (validation) and converts
anything else to the demo result. -/
def detectProducts (env : CallEnv) (cache : VisionCacheState) (file : FileModel) :
    DetectOutcome :=
  if jsStartsWith file.type "image/" = false then
    ⟨.error .INVALID_FILE, cache, false⟩
  else if 10 * 1024 * 1024 < file.size then
    ⟨.error .INVALID_FILE, cache, false⟩
  else
    let fileHash := generateFileHash env file
    match VisionCache.get env.now fileHash cache with
    | (some cached, cache1) => ⟨.ok cached, cache1, false⟩
    | (none, cache1) =>
      if env.apiThrows then ⟨.ok env.demo, cache1, true⟩
      else
        let result := callRealVisionAPI env.api
        if result.products.isEmpty then ⟨.ok env.demo, cache1, true⟩
        else
          let fileHash2 := generateFileHash env file
          ⟨.ok result, VisionCache.set env.now fileHash2 result cache1, true⟩

/-! ## `AIVisionService` (src/services/aiVisionService.ts) -/

structure AIDetectedProduct where
  id : String
  name : String
  category : String
  confidence : ℚ
  boundingBox : Option BoundingBox := none
deriving DecidableEq, Repr

structure AIImageAnalysis where
  dominantColors : List String
  brightness : ℚ
  contrast : ℚ
  sharpness : ℚ
  containsMultipleItems : Bool
  estimatedItemCount : Nat
deriving DecidableEq, Repr

/-- `createBasicImageAnalysis` (lines 391–400). -/
def createBasicImageAnalysis : AIImageAnalysis :=
  ⟨["#ffffff"], 0.7, 0.5, 0.6, true, 3⟩

structure AIVisionResult where
  products : List AIDetectedProduct
  confidence : ℚ
  processingTime : Nat
  modelUsed : String
  imageAnalysis : AIImageAnalysis
deriving DecidableEq, Repr

/-- Outcomes of the remote tiers of `AIVisionService.detectProducts`. -/
structure AIEnv where
  /-- Is `PRIMARY_TOKEN` or `GOOGLE_API_KEY` configured (via `init`)? -/
  hasApiKeys : Bool
  /-- `callPrimaryAI` outcome: `none` when it threw (axios error/timeout),
  otherwise the value parsed by `processAIResponse`. -/
  primary : Option AIVisionResult
  /-- `callGoogleVision` outcome. -/
  google : Option AIVisionResult
  /-- `callFallbackAPI` outcome, one per `FALLBACK_APIS` entry. -/
  fallbacks : List (Option AIVisionResult)
  /-- The `analyzeImageWithAI` demo result (lines 314–349). -/
  demo : AIVisionResult
  /-- `Date.now() - startTime` at the return point. -/
  elapsed : Nat

/-- The fallback-API loop (lines 134–147): failures and empty results are
skipped tier-locally. -/
def firstAIFallback : List (Option AIVisionResult) → Option AIVisionResult
  | [] => none
  | none :: rest => firstAIFallback rest
  | some r :: rest => if r.products.isEmpty then firstAIFallback rest else some r

/-- `AIVisionService.detectProducts` (lines 93–157). Without API keys, the
demo analysis is returned directly. With keys, the primary and Google Vision
calls run inside one big `try` whose `catch` (lines 153–156) rethrows
`new Error('Не удалось распознать продукты на изображении')`: a rejection in
either of those tiers aborts the whole call. Only the fallback-API loop
catches failures tier-locally. -/
def aiDetectProducts (env : AIEnv) : Except String AIVisionResult :=
  if env.hasApiKeys = false then .ok env.demo
  else
    match env.primary with
    | none => .error "Не удалось распознать продукты на изображении"
    | some result =>
      if result.products.isEmpty = false ∧ result.confidence > 0.6 then
        .ok { result with processingTime := env.elapsed, modelUsed := "primary-ai" }
      else
        match env.google with
        | none => .error "Не удалось распознать продукты на изображении"
        | some g =>
          if g.products.isEmpty = false then
            .ok { g with processingTime := env.elapsed, modelUsed := "google-vision" }
          else
            match firstAIFallback env.fallbacks with
            | some f =>
              .ok { f with processingTime := env.elapsed, modelUsed := "fallback" }
            | none => .ok env.demo


/-! ## `OCRService` (src/unnamed/part_002)

The receipt pipeline: a module-level plain `Map` cache keyed by the SHA-256
hex digest of the file bytes (no capacity bound, no timestamps, no TTL), a
single remote OCR tier with a demo fallback, and the pure text parser
`parseReceiptText`. -/

/-- `ocrCache = new Map<string, string>()` (line 26). -/
abbrev OcrCacheMap := List (String × String)

def ocrGet (k : String) : OcrCacheMap → Option String
  | [] => none
  | (k0, v) :: rest => if k0 = k then some v else ocrGet k rest

def ocrSet (k v : String) : OcrCacheMap → OcrCacheMap
  | [] => [(k, v)]
  | (k0, v0) :: rest => if k0 = k then (k, v) :: rest else (k0, v0) :: ocrSet k v rest

/-- `OCRService.generateFileHash` (lines 161–166): hex-encoded SHA-256 of the
raw bytes — no fallback path here. -/
def ocrGenerateFileHash (digest : List Nat → List Nat) (bytes : List Nat) : String :=
  hexEncodeBytes (digest bytes)

structure OcrEnv where
  /-- Outcome of `callRealOCRAPI` (lines 169–228), including its internal
  fallback-key retry: `none` when every attempt threw or produced no text,
  otherwise the extracted `ParsedText`. -/
  ocrText : Option String
  /-- The demo receipt `demoOCRProcessing` (lines 61–102) would pick. -/
  demoText : String

structure OcrOutcome where
  result : Except String String
  cache : OcrCacheMap
  /-- Whether the remote OCR provider was contacted during the call. -/
  providerCalled : Bool

/-- `OCRService.extractTextFromImage` (lines 29–59): MIME validation, cache
probe by content hash, then the OCR call; text longer than 10 characters
after trimming is cached and returned, anything else degrades to the demo
receipt (which is not cached). -/
def extractTextFromImage (digest : List Nat → List Nat) (env : OcrEnv)
    (cache : OcrCacheMap) (mimeType : String) (bytes : List Nat) : OcrOutcome :=
  if jsStartsWith mimeType "image/" = false then
    ⟨.error "Неподдерживаемый формат файла. Загрузите изображение.", cache, false⟩
  else
    let fileHash := ocrGenerateFileHash digest bytes
    match ocrGet fileHash cache with
    | some cached => ⟨.ok cached, cache, false⟩
    | none =>
      match env.ocrText with
      | some extractedText =>
        if 10 < (trimChars extractedText.data).length then
          ⟨.ok extractedText, ocrSet fileHash extractedText cache, true⟩
        else ⟨.ok env.demoText, cache, true⟩
      | none => ⟨.ok env.demoText, cache, true⟩

/-! ### `parseReceiptText` (lines 104–158)

The regexes are embedded at the character level with JS backtracking
semantics:
* `/(\d{4}-\d{2}-\d{2})/` — fixed-width groups, first position that fits;
* `/ИТОГ[\s:]*([\d.,]+)/i` — the two character classes are disjoint, so the
  greedy skip is deterministic;
* `/^(.+?)\s*-\s*([\d.,]+)$/` — the lazy group grows one character at a time
  until the anchored remainder `\s*-\s*[\d.,]+$` matches (`\s*` consumes a
  maximal space run: a space is never `'-'` nor an amount character, so no
  other backtracking can succeed).
`new Date(match)` keeps only the matched substring; the model carries that
substring. `parseFloat` is modelled into `ℚ` (`none` for JS `NaN`, which is
falsy exactly like an unset total). -/

structure ReceiptParseResult where
  products : List String
  store : Option String := none
  total : Option ℚ := none
  date : Option String := none
deriving DecidableEq, Repr

/-- `storePatterns` (lines 112–118). -/
def storePatterns : List (String × String) := [
  ("ПЯТЕРОЧКА", "Пятерочка"),
  ("МАГНИТ", "Магнит"),
  ("ЛЕНТА", "Лента"),
  ("АШАН", "Ашан"),
  ("ПЕРЕКРЕСТОК", "Перекресток")
]

/-- The store loop (lines 122–129): first pattern contained in the line. -/
def findStore (line : String) : List (String × String) → Option String
  | [] => none
  | (pat, storeName) :: rest =>
    if strIncludesCI line pat then some storeName else findStore line rest

/-- Exactly `n` digits from the front. -/
def digitsRun : Nat → List Char → Option (List Char × List Char)
  | 0, cs => some ([], cs)
  | _ + 1, [] => none
  | n + 1, c :: cs =>
    if isDigitChar c then (digitsRun n cs).map (fun p => (c :: p.1, p.2)) else none

/-- `\d{4}-\d{2}-\d{2}` anchored at this position. -/
def matchDateAt (cs : List Char) : Option (List Char) :=
  match digitsRun 4 cs with
  | none => none
  | some (d1, r1) =>
    match r1 with
    | '-' :: r2 =>
      match digitsRun 2 r2 with
      | none => none
      | some (d2, r3) =>
        match r3 with
        | '-' :: r4 =>
          match digitsRun 2 r4 with
          | none => none
          | some (d3, _) => some (d1 ++ '-' :: d2 ++ '-' :: d3)
        | _ => none
    | _ => none

/-- `line.match(/(\d{4}-\d{2}-\d{2})/)`: first matching position. -/
def findDate : List Char → Option String
  | [] => none
  | c :: cs =>
    match matchDateAt (c :: cs) with
    | some d => some ⟨d⟩
    | none => findDate cs

/-- `/ИТОГ[\s:]*([\d.,]+)/i` anchored at this position. -/
def matchTotalAt (cs : List Char) : Option (List Char) :=
  if charsHaveStart "итог".data (cs.map jsToLowerChar) then
    let afterSkip := (cs.drop 4).dropWhile (fun c => isSpaceChar c || c = ':')
    let amount := afterSkip.takeWhile isAmountChar
    if amount = [] then none else some amount
  else none

/-- `line.match(/ИТОГ[\s:]*([\d.,]+)/i)`: first matching position. -/
def findTotalAmount : List Char → Option (List Char)
  | [] => none
  | c :: cs =>
    match matchTotalAt (c :: cs) with
    | some a => some a
    | none => findTotalAmount cs

/-- JS `s.replace(',', '.')` — first occurrence only. -/
def replaceFirstComma : List Char → List Char
  | [] => []
  | c :: cs => if c = ',' then '.' :: cs else c :: replaceFirstComma cs

def digitsToNat (ds : List Char) : Nat :=
  ds.foldl (fun acc c => acc * 10 + (c.toNat - '0'.toNat)) 0

/-- JS `parseFloat` on a string drawn from `[\d.,]+` after the comma
replacement: integer part, optional single dot, fractional part; everything
after a second dot or a comma is ignored; `none` is JS `NaN`. -/
def parseFloatQ (cs : List Char) : Option ℚ :=
  let intPart := cs.takeWhile isDigitChar
  let rest := cs.dropWhile isDigitChar
  match rest with
  | '.' :: t =>
    let fracPart := t.takeWhile isDigitChar
    if intPart = [] ∧ fracPart = [] then none
    else some ((digitsToNat intPart : ℚ) +
      (digitsToNat fracPart : ℚ) / (10 : ℚ) ^ fracPart.length)
  | _ => if intPart = [] then none else some ((digitsToNat intPart : ℚ))

/-- Does `rest` match `\s*-\s*([\d.,]+)$`? Returns the captured amount. -/
def sepAmount (rest : List Char) : Option (List Char) :=
  match rest.dropWhile isSpaceChar with
  | '-' :: r2 =>
    let amount := r2.dropWhile isSpaceChar
    if amount ≠ [] ∧ amount.all isAmountChar then some amount else none
  | _ => none

/-- The lazy group `^(.+?)` of the product-line regex grows one character at
a time until `\s*-\s*([\d.,]+)$` matches the remainder. -/
def splitNameAmount (acc : List Char) : List Char → Option (List Char × List Char)
  | [] => none
  | c :: cs =>
    let acc' := acc ++ [c]
    match sepAmount cs with
    | some amount => some (acc', amount)
    | none => splitNameAmount acc' cs

/-- `line.match(/^(.+?)\s*-\s*([\d.,]+)$/)`. -/
def matchProductLine (line : List Char) : Option (List Char × List Char) :=
  splitNameAmount [] line

/-- `productName.replace(/^\d+\.?\s*/, '')` (line 152). -/
def stripLeadingOrdinal (cs : List Char) : List Char :=
  let ds := cs.takeWhile isDigitChar
  if ds = [] then cs
  else
    let r1 := cs.dropWhile isDigitChar
    let r2 :=
      match r1 with
      | '.' :: t => t
      | _ => r1
    r2.dropWhile isSpaceChar

structure ReceiptAccum where
  products : List String
  store : Option String
  total : Option ℚ
  date : Option String

/-- One iteration of the `for (const line of lines)` body (lines 120–155).
The `if (!total)` guard is JS-falsy: it also fires when a previous line set
the total to the literal `0`. -/
def parseReceiptLine (acc : ReceiptAccum) (line : String) : ReceiptAccum :=
  let store :=
    match acc.store with
    | some s => some s
    | none => findStore line storePatterns
  let date :=
    match acc.date with
    | some d => some d
    | none => findDate line.data
  let total :=
    if acc.total = none ∨ acc.total = some 0 then
      match findTotalAmount line.data with
      | some amount =>
        match parseFloatQ (replaceFirstComma amount) with
        | some q => some q
        | none => acc.total
      | none => acc.total
    else acc.total
  let products :=
    match matchProductLine line.data with
    | some (name, _) =>
      if strIncludes line "ИТОГ" = false ∧ strIncludes line "ЧЕК" = false then
        let productName := trimChars name
        let cleanName := stripLeadingOrdinal productName
        acc.products ++ [(⟨cleanName⟩ : String)]
      else acc.products
    | none => acc.products
  ⟨products, store, total, date⟩

/-- JS `text.split('\n')` at the character level. -/
def splitOnNewline : List Char → List (List Char)
  | [] => [[]]
  | c :: cs =>
    if c = '\n' then [] :: splitOnNewline cs
    else
      match splitOnNewline cs with
      | [] => [[c]]
      | l :: ls => (c :: l) :: ls

/-- `OCRService.parseReceiptText` (lines 104–158). -/
def parseReceiptText (text : String) : ReceiptParseResult :=
  let lines := ((splitOnNewline text.data).map (fun l => (⟨l⟩ : String))).filter
    (fun line => decide (trimChars line.data ≠ []))
  let acc := lines.foldl parseReceiptLine ⟨[], none, none, none⟩
  ⟨acc.products, acc.store, acc.total, acc.date⟩


/-! ## Concrete scenario data used in the theorems below -/

/-- Replay a sequence of cache `set` operations `(Date.now(), key, value)`
against the recognition cache. -/
def applySets [DecidableEq κ] (ops : List (Nat × κ × VisionResult))
    (c : CacheMap κ VisionResult) : CacheMap κ VisionResult :=
  ops.foldl (fun acc op => VisionCache.set op.1 op.2.1 op.2.2 acc) c

/-- A distinct non-empty recognition result per index. -/
def c3result (i : Nat) : VisionResult :=
  ⟨[⟨"продукт" ++ toString i, 1, none⟩], none⟩

/-- `MAX_SIZE + 1` distinct non-empty results inserted under distinct
fingerprints at increasing timestamps (all within one TTL window). -/
def c3run : VisionCacheState :=
  applySets ((List.range 101).map (fun i => (i, "k" ++ toString i, c3result i))) []

/-- The sample recognition produced by the primary tier in the witnesses. -/
def witnessResult : VisionResult := ⟨[⟨"яблоко", 0.9, none⟩], none⟩

/-- A cache holding one result stored at time 5. -/
def c4cache : VisionCacheState := [("h", ⟨witnessResult, 5⟩)]

/-- An environment whose primary tier succeeds with `witnessResult`. -/
def witnessEnv : CallEnv :=
  { api := { primary := some witnessResult, proxies := [], huggingFace := none,
             simulation := ⟨[⟨"фрукты", 0.7, none⟩], none⟩ }
    apiThrows := false
    demo := ⟨[⟨"молоко", 0.8, none⟩], none⟩
    cryptoAvailable := false
    digest := fun bytes => bytes
    now := 0 }

/-- A second call environment: same digest, later clock, crypto available. -/
def witnessEnv2 : CallEnv :=
  { witnessEnv with cryptoAvailable := true, now := 1000 }

/-- Like `witnessEnv` but with `crypto.subtle` available. -/
def witnessEnvA : CallEnv := { witnessEnv with cryptoAvailable := true }

/-- A valid 1000-byte PNG upload. -/
def witnessFile : FileModel := ⟨"image/png", 1000, "apple.png", [1, 2, 3]⟩

/-- The claim C6 input: case-variant duplicate detections, lower confidence
first. -/
def c6input : List ProductDetection :=
  [⟨"tomato", 0.6, none⟩, ⟨"Tomato", 0.9, none⟩]

/-- Thirteen distinct proxy detections with strictly increasing confidences
0.51, 0.52, …, 0.63 — all above the 0.5 cut. -/
def c7detections : ProxyResponseData :=
  ⟨(List.range 13).map (fun i => ⟨"prodlabel" ++ toString i, 0.51 + (i : ℚ) / 100, none⟩), ""⟩

/-- An environment whose primary tier fails and whose single proxy answers
with the parse of `c7detections`. -/
def c7env : CallEnv :=
  { api := { primary := none, proxies := [some (processProxyResponse c7detections)],
             huggingFace := none, simulation := ⟨[], none⟩ }
    apiThrows := false
    demo := ⟨[⟨"молоко", 0.8, none⟩], none⟩
    cryptoAvailable := false
    digest := fun bytes => bytes
    now := 0 }

/-- An `AIVisionService` demo analysis result. -/
def c1demoAI : AIVisionResult :=
  ⟨[⟨"apple-demo-1", "яблоко", "fruits", 0.85, none⟩], 0.8, 0, "demo-analysis",
    createBasicImageAnalysis⟩

/-- API keys configured, primary tier rejects (e.g. a timeout): the claim C1
counterexample environment for `AIVisionService.detectProducts`. -/
def c1aiEnv : AIEnv :=
  { hasApiKeys := true, primary := none, google := none, fallbacks := [],
    demo := c1demoAI, elapsed := 0 }

/-- The literal five-line receipt of claim C8. -/
def receiptText : String :=
  "ПЯТЕРОЧКА\n2024-01-15\nМолоко - 85.50\nХлеб - 45.00\nИТОГ: 130.50"


/-! ## Lemmas about the cache primitives -/

theorem mem_of_mem_mapDelete [DecidableEq κ] {k : κ} {c : CacheMap κ α}
    {x : κ × CacheEntry α} (h : x ∈ mapDelete k c) : x ∈ c :=
  List.mem_of_mem_filter h

theorem mem_of_mem_cleanup [DecidableEq κ] {now : Nat} {c : CacheMap κ α}
    {x : κ × CacheEntry α} (h : x ∈ VisionCache.cleanup now c) : x ∈ c :=
  List.mem_of_mem_filter h

theorem cleanup_fresh [DecidableEq κ] {now : Nat} {c : CacheMap κ α}
    {x : κ × CacheEntry α} (h : x ∈ VisionCache.cleanup now c) :
    now - x.2.timestamp ≤ VisionCache.TTL := by
  have h2 := List.of_mem_filter h
  simp only [decide_eq_true_eq] at h2
  omega

theorem length_mapSet_le [DecidableEq κ] (k : κ) (e : CacheEntry α) (c : CacheMap κ α) :
    (mapSet k e c).length ≤ c.length + 1 := by
  induction c with
  | nil => simp [mapSet]
  | cons hd tl ih =>
    obtain ⟨k0, e0⟩ := hd
    simp only [mapSet]
    split
    · simp
    · simpa using Nat.succ_le_succ ih

theorem mem_mapSet [DecidableEq κ] {k : κ} {e : CacheEntry α} {c : CacheMap κ α}
    {x : κ × CacheEntry α} (h : x ∈ mapSet k e c) : x ∈ c ∨ x = (k, e) := by
  induction c with
  | nil =>
    simp only [mapSet, List.mem_singleton] at h
    exact Or.inr h
  | cons hd tl ih =>
    obtain ⟨k0, e0⟩ := hd
    simp only [mapSet] at h
    split at h
    · rcases List.mem_cons.mp h with h | h
      · exact Or.inr h
      · exact Or.inl (List.mem_cons_of_mem _ h)
    · rcases List.mem_cons.mp h with h | h
      · exact Or.inl (h ▸ List.mem_cons_self _ _)
      · rcases ih h with h | h
        · exact Or.inl (List.mem_cons_of_mem _ h)
        · exact Or.inr h

theorem getOldestAux_fst_mem (best : κ × Nat) (c : CacheMap κ α) :
    (VisionCache.getOldestAux best c).1 = best.1 ∨
      (VisionCache.getOldestAux best c).1 ∈ c.map Prod.fst := by
  induction c generalizing best with
  | nil => exact Or.inl rfl
  | cons hd tl ih =>
    obtain ⟨k, e⟩ := hd
    simp only [VisionCache.getOldestAux, List.map_cons]
    by_cases hc : e.timestamp < best.2
    · rw [if_pos hc]
      rcases ih (k, e.timestamp) with h | h
      · exact Or.inr (List.mem_cons.mpr (Or.inl h))
      · exact Or.inr (List.mem_cons.mpr (Or.inr h))
    · rw [if_neg hc]
      rcases ih best with h | h
      · exact Or.inl h
      · exact Or.inr (List.mem_cons.mpr (Or.inr h))

theorem getOldestKey_mem [DecidableEq κ] {c : CacheMap κ α} {k : κ}
    (h : VisionCache.getOldestKey c = some k) : k ∈ c.map Prod.fst := by
  cases c with
  | nil => simp [VisionCache.getOldestKey] at h
  | cons hd tl =>
    obtain ⟨k0, e0⟩ := hd
    simp only [VisionCache.getOldestKey, Option.some.injEq] at h
    rw [List.map_cons]
    rcases getOldestAux_fst_mem (k0, e0.timestamp) tl with h1 | h1
    · exact List.mem_cons.mpr (Or.inl (h ▸ h1))
    · exact List.mem_cons.mpr (Or.inr (h ▸ h1))

theorem length_mapDelete_lt [DecidableEq κ] {k : κ} {c : CacheMap κ α}
    (h : k ∈ c.map Prod.fst) : (mapDelete k c).length < c.length := by
  induction c with
  | nil => simp at h
  | cons hd tl ih =>
    obtain ⟨k0, e0⟩ := hd
    simp only [List.map_cons, List.mem_cons] at h
    by_cases hk : k0 = k
    · have hdrop : mapDelete k ((k0, e0) :: tl) = mapDelete k tl := by
        simp [mapDelete, List.filter_cons, hk]
      rw [hdrop]
      have := List.length_filter_le (fun p => decide (p.1 ≠ k)) tl
      simp only [mapDelete, List.length_cons]
      omega
    · have hmem : k ∈ tl.map Prod.fst := by
        rcases h with h | h
        · exact absurd h.symm hk
        · exact h
      have hkeep : mapDelete k ((k0, e0) :: tl) = (k0, e0) :: mapDelete k tl := by
        simp [mapDelete, List.filter_cons, hk]
      rw [hkeep]
      simpa using Nat.succ_lt_succ (ih hmem)

theorem mem_of_mem_evictIfFull [DecidableEq κ] {c : CacheMap κ α}
    {x : κ × CacheEntry α} (h : x ∈ VisionCache.evictIfFull c) : x ∈ c := by
  unfold VisionCache.evictIfFull at h
  split at h
  · split at h
    · exact mem_of_mem_mapDelete h
    · exact h
  · exact h

theorem length_evictIfFull_lt [DecidableEq κ] {c : CacheMap κ α}
    (h : c.length ≤ VisionCache.MAX_SIZE) :
    (VisionCache.evictIfFull c).length < VisionCache.MAX_SIZE := by
  unfold VisionCache.evictIfFull
  split
  · rename_i hfull
    split
    · rename_i k0 hok
      have := length_mapDelete_lt (getOldestKey_mem hok)
      omega
    · rename_i hok
      cases c with
      | nil => simp [VisionCache.MAX_SIZE]
      | cons hd tl =>
        obtain ⟨k1, e1⟩ := hd
        simp [VisionCache.getOldestKey] at hok
  · omega

theorem length_set_le [DecidableEq κ] (now : Nat) (k : κ) (v : α) {c : CacheMap κ α}
    (h : c.length ≤ VisionCache.MAX_SIZE) :
    (VisionCache.set now k v c).length ≤ VisionCache.MAX_SIZE := by
  unfold VisionCache.set
  have h1 : (VisionCache.cleanup now c).length ≤ VisionCache.MAX_SIZE :=
    le_trans (List.length_filter_le _ _) h
  have h2 := length_evictIfFull_lt (κ := κ) (α := α) h1
  have h3 := length_mapSet_le k ⟨v, now⟩ (VisionCache.evictIfFull (VisionCache.cleanup now c))
  omega

theorem length_applySets_le [DecidableEq κ] (ops : List (Nat × κ × VisionResult))
    {c : CacheMap κ VisionResult} (h : c.length ≤ VisionCache.MAX_SIZE) :
    (applySets ops c).length ≤ VisionCache.MAX_SIZE := by
  induction ops generalizing c with
  | nil => exact h
  | cons op rest ih =>
    simp only [applySets, List.foldl_cons]
    exact ih (length_set_le op.1 op.2.1 op.2.2 h)

theorem set_fresh [DecidableEq κ] (now : Nat) (k : κ) (v : α) (c : CacheMap κ α) :
    ∀ p ∈ VisionCache.set now k v c, now - p.2.timestamp ≤ VisionCache.TTL := by
  intro p hp
  rcases mem_mapSet hp with h | h
  · exact cleanup_fresh (mem_of_mem_evictIfFull h)
  · subst h
    simp

theorem mem_get_snd [DecidableEq κ] {now : Nat} {k : κ} {c : CacheMap κ α}
    {x : κ × CacheEntry α} (h : x ∈ (VisionCache.get now k c).2) : x ∈ c := by
  unfold VisionCache.get at h
  split at h
  · split at h
    · exact h
    · exact mem_of_mem_mapDelete h
  · exact h

theorem mem_set_cases [DecidableEq κ] {now : Nat} {k : κ} {v : α} {c : CacheMap κ α}
    {x : κ × CacheEntry α} (h : x ∈ VisionCache.set now k v c) :
    x ∈ c ∨ x = (k, ⟨v, now⟩) := by
  unfold VisionCache.set at h
  rcases mem_mapSet h with h | h
  · exact Or.inl (mem_of_mem_cleanup (mem_of_mem_evictIfFull h))
  · exact Or.inr h

theorem get_hit [DecidableEq κ] {now : Nat} {k : κ} {c : CacheMap κ α}
    {e : CacheEntry α} (hm : mapGet k c = some e)
    (hfresh : now - e.timestamp < VisionCache.TTL) :
    VisionCache.get now k c = (some e.result, c) := by
  simp only [VisionCache.get, hm]
  rw [if_pos hfresh]


/-! ## Lemmas about de-duplication and the confidence sort -/

theorem removeDupAux_sublist (seen : List String) (ps : List ProductDetection) :
    List.Sublist (removeDupAux seen ps) ps := by
  induction ps generalizing seen with
  | nil => simp [removeDupAux]
  | cons p ps ih =>
    simp only [removeDupAux]
    split
    · exact (ih seen).cons p
    · exact (ih (lowerStr p.name :: seen)).cons₂ p

theorem removeDupAux_keys (ps : List ProductDetection) : ∀ seen : List String,
    ((removeDupAux seen ps).map (fun p => lowerStr p.name)).Nodup ∧
      ∀ k ∈ (removeDupAux seen ps).map (fun p => lowerStr p.name), k ∉ seen := by
  induction ps with
  | nil => intro seen; simp [removeDupAux]
  | cons p ps ih =>
    intro seen
    simp only [removeDupAux]
    split
    · exact ih seen
    · rename_i hnot
      obtain ⟨ih1, ih2⟩ := ih (lowerStr p.name :: seen)
      constructor
      · simp only [List.map_cons, List.nodup_cons]
        exact ⟨fun hmem => (ih2 _ hmem) (List.mem_cons_self _ _), ih1⟩
      · intro k hk
        simp only [List.map_cons, List.mem_cons] at hk
        rcases hk with rfl | hk
        · exact hnot
        · exact fun hks => (ih2 k hk) (List.mem_cons_of_mem _ hks)

theorem removeDuplicates_keys_nodup (ps : List ProductDetection) :
    ((removeDuplicates ps).map (fun p => lowerStr p.name)).Nodup :=
  (removeDupAux_keys ps []).1

theorem removeDuplicates_sublist (ps : List ProductDetection) :
    List.Sublist (removeDuplicates ps) ps :=
  removeDupAux_sublist [] ps

theorem insertByConfidence_perm (p : ProductDetection) (l : List ProductDetection) :
    List.Perm (insertByConfidence p l) (p :: l) := by
  induction l with
  | nil => simp [insertByConfidence]
  | cons q qs ih =>
    simp only [insertByConfidence]
    split
    · exact List.Perm.refl _
    · exact (ih.cons q).trans (List.Perm.swap p q qs)

theorem sortByConfidenceDesc_perm (l : List ProductDetection) :
    List.Perm (sortByConfidenceDesc l) l := by
  induction l with
  | nil => exact List.Perm.refl _
  | cons p ps ih =>
    exact (insertByConfidence_perm p (sortByConfidenceDesc ps)).trans (ih.cons p)

theorem insertByConfidence_pairwise {l : List ProductDetection}
    (h : List.Pairwise (fun a b => b.confidence ≤ a.confidence) l)
    (p : ProductDetection) :
    List.Pairwise (fun a b => b.confidence ≤ a.confidence) (insertByConfidence p l) := by
  induction l with
  | nil => simp [insertByConfidence]
  | cons q qs ih =>
    rcases List.pairwise_cons.mp h with ⟨hq, hqs⟩
    simp only [insertByConfidence]
    split
    · rename_i hle
      refine List.pairwise_cons.mpr ⟨?_, h⟩
      intro b hb
      rcases List.mem_cons.mp hb with rfl | hb
      · exact hle
      · exact le_trans (hq b hb) hle
    · rename_i hgt
      refine List.pairwise_cons.mpr ⟨?_, ih hqs⟩
      intro b hb
      rcases List.mem_cons.mp ((insertByConfidence_perm p qs).mem_iff.mp hb) with rfl | hb
      · exact le_of_not_le hgt
      · exact hq b hb

theorem sortByConfidenceDesc_pairwise (l : List ProductDetection) :
    List.Pairwise (fun a b => b.confidence ≤ a.confidence) (sortByConfidenceDesc l) := by
  induction l with
  | nil => simp [sortByConfidenceDesc]
  | cons p ps ih => exact insertByConfidence_pairwise ih p

/-- The final stage of `processVisionResponse` establishes the whole result
invariant, whatever candidate list the facet loops built. -/
theorem finalize_invariant (ps : List ProductDetection) :
    (((sortByConfidenceDesc (removeDuplicates ps)).take 12).map
        (fun p => lowerStr p.name)).Nodup ∧
      List.Pairwise (fun a b => b.confidence ≤ a.confidence)
        ((sortByConfidenceDesc (removeDuplicates ps)).take 12) ∧
      ((sortByConfidenceDesc (removeDuplicates ps)).take 12).length ≤ 12 := by
  have hperm : List.Perm (sortByConfidenceDesc (removeDuplicates ps)) (removeDuplicates ps) :=
    sortByConfidenceDesc_perm _
  have hnodup :
      ((sortByConfidenceDesc (removeDuplicates ps)).map (fun p => lowerStr p.name)).Nodup :=
    ((hperm.map _).nodup_iff).mpr (removeDuplicates_keys_nodup ps)
  refine ⟨?_, ?_, ?_⟩
  · exact hnodup.sublist ((List.take_sublist _ _).map _)
  · exact (sortByConfidenceDesc_pairwise _).sublist (List.take_sublist _ _)
  · exact List.length_take_le _ _


/-! ## Lemmas about the OCR cache -/

theorem ocrGet_ocrSet_self (k v : String) (c : OcrCacheMap) :
    ocrGet k (ocrSet k v c) = some v := by
  induction c with
  | nil => simp [ocrSet, ocrGet]
  | cons hd tl ih =>
    obtain ⟨k0, v0⟩ := hd
    simp only [ocrSet]
    split
    · simp [ocrGet]
    · rename_i hne
      simp only [ocrGet]
      rw [if_neg hne]
      exact ih

theorem length_ocrSet_fresh {k : String} (v : String) {c : OcrCacheMap}
    (h : ¬ k ∈ c.map Prod.fst) : (ocrSet k v c).length = c.length + 1 := by
  induction c with
  | nil => simp [ocrSet]
  | cons hd tl ih =>
    obtain ⟨k0, v0⟩ := hd
    simp only [List.map_cons, List.mem_cons] at h
    push_neg at h
    simp only [ocrSet]
    rw [if_neg (fun he => h.1 he.symm)]
    simp [ih h.2]

theorem mem_ocrSet_of_ne {k v k' v' : String} {c : OcrCacheMap}
    (hm : (k', v') ∈ c) (hne : k' ≠ k) : (k', v') ∈ ocrSet k v c := by
  induction c with
  | nil => simp at hm
  | cons hd tl ih =>
    obtain ⟨k0, v0⟩ := hd
    simp only [ocrSet]
    rcases List.mem_cons.mp hm with h | h
    · split
      · rename_i he
        exact absurd ((Prod.mk.injEq .. ▸ h).1.trans he) hne
      · exact List.mem_cons.mpr (Or.inl h)
    · split
      · exact List.mem_cons_of_mem _ h
      · exact List.mem_cons_of_mem _ (ih h)

theorem replicate_none_firstProxyResult (n : Nat) :
    firstProxyResult (List.replicate n none) = none := by
  induction n with
  | zero => rfl
  | succ n ih => simpa [List.replicate_succ, firstProxyResult] using ih

/-! ## The specification claims

Concrete evaluations below go through `decide`; the arithmetic of `ℚ` is made
locally transparent for them (the sources compare and add plain decimal
numbers, all of which are exact rationals). -/

section ClaimTheorems

attribute [local semireducible] Rat.mul Rat.add Rat.inv Rat.ofScientific Rat.sub

/-- Claim C4: For a cache entry stored at time `T`, `get` returns the
stored result at any lookup time earlier than `T + TTL` and treats the entry
as absent at any later lookup time, deleting the stale entry as a side effect
of that lookup; and every `set` first removes all entries older than TTL, so
each entry of the updated cache is at most TTL old. -/
theorem claims_C4 (c : VisionCacheState) (k : String) (e : CacheEntry VisionResult)
    (t : Nat) :
    (mapGet k c = some e →
      (t < e.timestamp + VisionCache.TTL →
        VisionCache.get t k c = (some e.result, c)) ∧
      (e.timestamp + VisionCache.TTL ≤ t →
        VisionCache.get t k c = (none, mapDelete k c))) ∧
    (∀ v : VisionResult, ∀ p ∈ VisionCache.set t k v c,
      t - p.2.timestamp ≤ VisionCache.TTL) := by
  have hTTL : VisionCache.TTL = 1800000 := rfl
  refine ⟨fun hm => ⟨fun hlt => ?_, fun hge => ?_⟩, fun v p hp => set_fresh t k v c p hp⟩
  · simp only [VisionCache.get, hm]
    rw [if_pos (by omega)]
  · simp only [VisionCache.get, hm]
    rw [if_neg (by omega)]

/-- Witness for C4: the entry stored at time 5 is present at time 6, and is
absent — and deleted — at time `5 + TTL`. -/
theorem claims_C4_witness :
    VisionCache.get 6 "h" c4cache = (some witnessResult, c4cache) ∧
    VisionCache.get 1800005 "h" c4cache = (none, mapDelete "h" c4cache) := by
  constructor
  · exact ((claims_C4 c4cache "h" ⟨witnessResult, 5⟩ 6).1 (by decide)).1 (by decide)
  · exact ((claims_C4 c4cache "h" ⟨witnessResult, 5⟩ 1800005).1 (by decide)).2 (by decide)

/-- Claim C2: `detectProducts` rejects a file whose declared MIME type
does not start with `image/`, or whose size exceeds 10MB, with the terminal
`INVALID_FILE` validation error, before any cache lookup (the cache is
untouched) or provider call; and validation failures are the only error class
it ever propagates. -/
theorem claims_C2 (env : CallEnv) (cache : VisionCacheState) (file : FileModel) :
    ((jsStartsWith file.type "image/" = false ∨ 10 * 1024 * 1024 < file.size) →
      detectProducts env cache file =
        ⟨.error .INVALID_FILE, cache, false⟩) ∧
    (∀ code, (detectProducts env cache file).result = .error code →
      (jsStartsWith file.type "image/" = false ∨ 10 * 1024 * 1024 < file.size) ∧
        code = .INVALID_FILE) := by
  constructor
  · intro h
    unfold detectProducts
    rcases h with h | h
    · rw [if_pos h]
    · by_cases h1 : jsStartsWith file.type "image/" = false
      · rw [if_pos h1]
      · rw [if_neg h1, if_pos h]
  · intro code h
    by_cases h1 : jsStartsWith file.type "image/" = false
    · refine ⟨Or.inl h1, ?_⟩
      unfold detectProducts at h
      rw [if_pos h1] at h
      simpa using h.symm
    · by_cases h2 : 10 * 1024 * 1024 < file.size
      · refine ⟨Or.inr h2, ?_⟩
        unfold detectProducts at h
        rw [if_neg h1, if_pos h2] at h
        simpa using h.symm
      · exfalso
        simp only [detectProducts] at h
        rw [if_neg h1, if_neg h2] at h
        rcases hg : VisionCache.get env.now (generateFileHash env file) cache with ⟨o, c1⟩
        cases o with
        | some cached => rw [hg] at h; simp at h
        | none =>
          rw [hg] at h
          simp only [] at h
          split at h
          · simp at h
          · split at h
            · simp at h
            · simp at h

/-- Witness for C2: a 1000-byte `text/plain` file is rejected with
`INVALID_FILE`, the cache left untouched and no provider contacted. -/
theorem claims_C2_witness :
    detectProducts witnessEnv c4cache ⟨"text/plain", 1000, "note.txt", [1]⟩ =
      ⟨.error .INVALID_FILE, c4cache, false⟩ :=
  (claims_C2 witnessEnv c4cache ⟨"text/plain", 1000, "note.txt", [1]⟩).1
    (Or.inl (by decide))

/-- Claim C6 (amended): De-duplication keeps, for each lower-cased name,
the first-listed candidate with its confidence (later case-variant duplicates
are dropped regardless of confidence): the output keys are duplicate-free, the
output is a sublist of the input, and on the claim's input the single merged
`tomato` entry keeps confidence 0.6 — not the higher 0.9. -/
theorem claims_C6 :
    (∀ ps : List ProductDetection,
      ((removeDuplicates ps).map (fun p => lowerStr p.name)).Nodup ∧
        List.Sublist (removeDuplicates ps) ps) ∧
    removeDuplicates c6input = [⟨"tomato", 0.6, none⟩] :=
  ⟨fun ps => ⟨removeDuplicates_keys_nodup ps, removeDuplicates_sublist ps⟩, by decide⟩

/-- Counterexample for C6 as stated: on the claimed input the merged output's
single entry carries confidence 0.6 (the first occurrence), not 0.9. -/
theorem claims_C6_counterexample :
    (removeDuplicates c6input).map (fun p => p.confidence) = [0.6] ∧
    ¬ (removeDuplicates c6input).map (fun p => p.confidence) = [0.9] := by
  decide

/-- Claim C8 (amended): On the literal five-line receipt, `parseReceiptText`
returns store `Пятерочка`, date `2024-01-15`, total `130.50` — and products
`["-01", "Молоко", "Хлеб"]`: the bare date line also matches the product-line
pattern `^(.+?)\s*-\s*([\d.,]+)$` (name `2024-01`, amount `15`), and after
the leading-digit strip it contributes the spurious item `-01`. -/
theorem claims_C8 :
    parseReceiptText receiptText =
      { products := ["-01", "Молоко", "Хлеб"], store := some "Пятерочка",
        total := some 130.50, date := some "2024-01-15" } := by
  decide

/-- Counterexample for C8 as stated: the product list is not
`["Молоко", "Хлеб"]`. -/
theorem claims_C8_counterexample :
    ¬ (parseReceiptText receiptText).products = ["Молоко", "Хлеб"] := by
  decide


/-- Claim C1 (amended): For every input passing validation,
`VisionService.detectProducts` returns a recognition result and never throws:
its tier failures are absorbed inside `callRealVisionAPI` (with every remote
tier failing, the cascade still answers — ultimately with the local
simulation — and an empty outcome degrades to the demo result).
`AIVisionService.detectProducts`, by contrast, only degrades like this when
no API keys are configured (or within its fallback-API loop): with keys
configured, a thrown failure in its primary tier propagates an error to the
caller instead of advancing. -/
theorem claims_C1 :
    (∀ (env : CallEnv) (cache : VisionCacheState) (file : FileModel),
      jsStartsWith file.type "image/" = true → file.size ≤ 10 * 1024 * 1024 →
      ∃ r, (detectProducts env cache file).result = .ok r) ∧
    (∀ (n : Nat) (sim : VisionResult),
      callRealVisionAPI ⟨none, List.replicate n none, none, sim⟩ = sim) ∧
    (∀ aenv : AIEnv, aenv.hasApiKeys = false →
      aiDetectProducts aenv = .ok aenv.demo) ∧
    (∀ aenv : AIEnv, aenv.hasApiKeys = true → aenv.primary = none →
      aiDetectProducts aenv =
        .error "Не удалось распознать продукты на изображении") := by
  refine ⟨?_, ?_, ?_, ?_⟩
  · intro env cache file h1 h2
    simp only [detectProducts]
    rw [if_neg (by simp [h1]), if_neg (by omega)]
    rcases hg : VisionCache.get env.now (generateFileHash env file) cache with ⟨o, c1⟩
    cases o with
    | some cached => exact ⟨cached, rfl⟩
    | none =>
      by_cases ha : env.apiThrows = true
      · exact ⟨env.demo, by simp [ha]⟩
      · by_cases he : (callRealVisionAPI env.api).products.isEmpty = true
        · exact ⟨env.demo, by simp [ha, he]⟩
        · exact ⟨callRealVisionAPI env.api, by simp [ha, he]⟩
  · intro n sim
    simp [callRealVisionAPI, callProxiesAndBeyond, replicate_none_firstProxyResult]
  · intro aenv h
    simp [aiDetectProducts, h]
  · intro aenv h1 h2
    simp [aiDetectProducts, h1, h2]

/-- Witness for C1: a valid PNG upload in a concrete environment yields a
recognition result. -/
theorem claims_C1_witness :
    ∃ r, (detectProducts witnessEnv [] witnessFile).result = .ok r :=
  claims_C1.1 witnessEnv [] witnessFile (by decide) (by decide)

/-- Counterexample for C1 as stated: with API keys configured, a failing
primary tier makes `AIVisionService.detectProducts` abort with an error —
the failure is not recovered by advancing to the next provider. -/
theorem claims_C1_counterexample :
    aiDetectProducts c1aiEnv =
      .error "Не удалось распознать продукты на изображении" := rfl

set_option maxRecDepth 100000 in
/-- Claim C3: The recognition cache never holds more than
`MAX_SIZE = 100` entries: any sequence of `set` operations from the empty
cache respects the bound, and 101 insertions of distinct non-empty results
(at increasing timestamps within one TTL window) leave exactly 100 entries —
the single entry with the smallest timestamp (`"k0"`, inserted first) is the
one evicted, all later keys are still present. -/
theorem claims_C3 :
    (∀ ops : List (Nat × String × VisionResult),
      (applySets ops ([] : VisionCacheState)).length ≤ VisionCache.MAX_SIZE) ∧
    c3run.length = VisionCache.MAX_SIZE ∧
    mapGet "k0" c3run = none ∧
    (((List.range 101).drop 1).all
      (fun i => (mapGet ("k" ++ toString i) c3run).isSome)) = true := by
  refine ⟨fun ops => length_applySets_le ops (by simp), by decide, by decide, by decide⟩

/-- Claim C10: The receipt-OCR text cache is unbounded and its entries
never expire: a provider extraction whose text trims to more than 10
characters is stored under the SHA-256 hex digest of the file bytes; a stored
entry answers any later call on identical bytes — in any environment, with no
provider contact; inserting a fresh key always grows the cache by one; and an
entry survives insertions under any other key. -/
theorem claims_C10 (digest : List Nat → List Nat) (env env2 : OcrEnv)
    (cache : OcrCacheMap) (mimeType : String) (bytes : List Nat) (txt : String) :
    (jsStartsWith mimeType "image/" = true →
      ocrGet (ocrGenerateFileHash digest bytes) cache = some txt →
      extractTextFromImage digest env cache mimeType bytes =
        ⟨.ok txt, cache, false⟩) ∧
    (jsStartsWith mimeType "image/" = true →
      ocrGet (ocrGenerateFileHash digest bytes) cache = none →
      env.ocrText = some txt → 10 < (trimChars txt.data).length →
      extractTextFromImage digest env cache mimeType bytes =
        ⟨.ok txt, ocrSet (ocrGenerateFileHash digest bytes) txt cache, true⟩ ∧
      extractTextFromImage digest env2
          (ocrSet (ocrGenerateFileHash digest bytes) txt cache) mimeType bytes =
        ⟨.ok txt, ocrSet (ocrGenerateFileHash digest bytes) txt cache, false⟩) ∧
    (∀ k v : String, ∀ mapState : OcrCacheMap, ¬ k ∈ mapState.map Prod.fst →
      (ocrSet k v mapState).length = mapState.length + 1) ∧
    (∀ (k v k' v' : String) (mapState : OcrCacheMap),
      (k', v') ∈ mapState → k' ≠ k → (k', v') ∈ ocrSet k v mapState) := by
  refine ⟨fun hm hc => ?_, fun hm hc htxt hlen => ⟨?_, ?_⟩,
    fun k v mapState h => length_ocrSet_fresh v h,
    fun k v k' v' mapState hmem hne => mem_ocrSet_of_ne hmem hne⟩
  · simp only [extractTextFromImage, hm]
    rw [if_neg (by simp), hc]
  · simp only [extractTextFromImage, hm]
    rw [if_neg (by simp), hc, htxt]
    simp [hlen]
  · simp only [extractTextFromImage, hm]
    rw [if_neg (by simp), ocrGet_ocrSet_self]

/-- Witness for C10: a first extraction caches the OCR text under the content
hash; the repeat call on the same bytes is served from the cache with no
provider contact. -/
theorem claims_C10_witness :
    extractTextFromImage (fun bytes => bytes)
        ⟨some "ПЯТЕРОЧКА 2024-01-15 ИТОГ: 130.50", "демо"⟩ [] "image/jpeg" [1] =
      ⟨.ok "ПЯТЕРОЧКА 2024-01-15 ИТОГ: 130.50",
        [("01", "ПЯТЕРОЧКА 2024-01-15 ИТОГ: 130.50")], true⟩ ∧
    extractTextFromImage (fun bytes => bytes)
        ⟨some "ПЯТЕРОЧКА 2024-01-15 ИТОГ: 130.50", "демо"⟩
        [("01", "ПЯТЕРОЧКА 2024-01-15 ИТОГ: 130.50")] "image/jpeg" [1] =
      ⟨.ok "ПЯТЕРОЧКА 2024-01-15 ИТОГ: 130.50",
        [("01", "ПЯТЕРОЧКА 2024-01-15 ИТОГ: 130.50")], false⟩ :=
  (claims_C10 (fun bytes => bytes)
      ⟨some "ПЯТЕРОЧКА 2024-01-15 ИТОГ: 130.50", "демо"⟩
      ⟨some "ПЯТЕРОЧКА 2024-01-15 ИТОГ: 130.50", "демо"⟩ [] "image/jpeg" [1]
      "ПЯТЕРОЧКА 2024-01-15 ИТОГ: 130.50").2.1
    (by decide) (by decide) rfl (by decide)


/-- Claim C5: A recognition call never creates a cache entry for a
zero-product result: every entry of the post-call cache either already existed
in the pre-call cache or carries a non-empty product list. -/
theorem claims_C5 (env : CallEnv) (cache : VisionCacheState) (file : FileModel)
    (k : String) (e : CacheEntry VisionResult) :
    (k, e) ∈ (detectProducts env cache file).cache →
    (k, e) ∈ cache ∨ e.result.products ≠ [] := by
  intro h
  simp only [detectProducts] at h
  split at h
  · exact Or.inl h
  · split at h
    · exact Or.inl h
    · split at h
      · rename_i cached cache1 heq
        have hmem : (k, e) ∈ (VisionCache.get env.now (generateFileHash env file) cache).2 := by
          rw [heq]
          exact h
        exact Or.inl (mem_get_snd hmem)
      · rename_i cache1 heq
        have hsub : (k, e) ∈ cache1 → (k, e) ∈ cache := fun hmem =>
          mem_get_snd
            (show (k, e) ∈ (VisionCache.get env.now (generateFileHash env file) cache).2 by
              rw [heq]
              exact hmem)
        split at h
        · exact Or.inl (hsub h)
        · split at h
          · exact Or.inl (hsub h)
          · rename_i hemp
            rcases mem_set_cases h with hm | hm
            · exact Or.inl (hsub hm)
            · have he : e = ⟨callRealVisionAPI env.api, env.now⟩ :=
                congrArg Prod.snd hm
              subst he
              right
              simpa [List.isEmpty_iff] using hemp

/-- Witness for C5: a concrete call whose primary tier answered with one
product creates a cache entry, and that entry's product list is non-empty. -/
theorem claims_C5_witness :
    ("simple-hash-1000-apple.png-0", (⟨witnessResult, 0⟩ : CacheEntry VisionResult)) ∈
        ([] : VisionCacheState) ∨
      witnessResult.products ≠ [] :=
  claims_C5 witnessEnv [] witnessFile "simple-hash-1000-apple.png-0"
    ⟨witnessResult, 0⟩ (by decide)

/-- Claim C7 (amended): Results of `processVisionResponse` (the primary
Google Vision path) satisfy the full invariant: no two products share a
lower-cased name, confidences are sorted descending, and at most 12 products
are kept. Proxy and Hugging Face results are only guaranteed duplicate-free:
those processors neither sort nor truncate. -/
theorem claims_C7 :
    (∀ response : VisionResponse,
      ((processVisionResponse response).products.map (fun p => lowerStr p.name)).Nodup ∧
        List.Pairwise (fun a b => b.confidence ≤ a.confidence)
          (processVisionResponse response).products ∧
        (processVisionResponse response).products.length ≤ 12) ∧
    (∀ data : ProxyResponseData,
      ((processProxyResponse data).products.map (fun p => lowerStr p.name)).Nodup) ∧
    (∀ items : List HFItem,
      ((processHuggingFaceResponse items).products.map (fun p => lowerStr p.name)).Nodup) :=
  ⟨fun _ => finalize_invariant _, fun _ => removeDuplicates_keys_nodup _,
    fun _ => removeDuplicates_keys_nodup _⟩

set_option maxRecDepth 100000 in
/-- Counterexample for C7 as stated: a proxy answer with 13 detections in
ascending confidence order flows through `detectProducts` unchanged — the
returned result has 13 products (exceeding the cap of 12) and is not sorted
by descending confidence. -/
theorem claims_C7_counterexample :
    (detectProducts c7env [] ⟨"image/jpeg", 1000, "shelf.jpg", [7]⟩).result =
      .ok (processProxyResponse c7detections) ∧
    (processProxyResponse c7detections).products.length = 13 ∧
    ¬ List.Pairwise (fun a b : ProductDetection => b.confidence ≤ a.confidence)
        (processProxyResponse c7detections).products := by
  refine ⟨rfl, by decide, by decide⟩

/-- Claim C9: With `crypto.subtle` available the content hash depends only
on the file bytes (same digest primitive, any clock, two distinct runs give
the same fingerprint); consequently a second `detectProducts` call on the same
bytes within TTL of a first successful call is answered from the cache: the
identical result is returned, no provider is contacted, and the cache is left
unchanged. -/
theorem claims_C9 (env1 env2 : CallEnv) (file : FileModel) (r : VisionResult) :
    env1.cryptoAvailable = true → env2.cryptoAvailable = true →
    env1.digest = env2.digest →
    generateFileHash env1 file = generateFileHash env2 file ∧
    (jsStartsWith file.type "image/" = true → file.size ≤ 10 * 1024 * 1024 →
      env1.apiThrows = false → callRealVisionAPI env1.api = r → r.products ≠ [] →
      env2.now < env1.now + VisionCache.TTL →
      (detectProducts env1 [] file).result = .ok r ∧
      (detectProducts env1 [] file).providerCalled = true ∧
      (detectProducts env2 (detectProducts env1 [] file).cache file).result = .ok r ∧
      (detectProducts env2 (detectProducts env1 [] file).cache file).providerCalled
        = false ∧
      (detectProducts env2 (detectProducts env1 [] file).cache file).cache =
        (detectProducts env1 [] file).cache) := by
  intro hc1 hc2 hd
  have hhash : generateFileHash env1 file = generateFileHash env2 file := by
    simp [generateFileHash, hc1, hc2, hd]
  refine ⟨hhash, fun hv hs ha hr hne hts => ?_⟩
  have hTTL : VisionCache.TTL = 1800000 := rfl
  have h1 : detectProducts env1 [] file =
      ⟨.ok r, [(generateFileHash env1 file, ⟨r, env1.now⟩)], true⟩ := by
    simp only [detectProducts]
    rw [if_neg (by simp [hv]), if_neg (by omega)]
    have hget : VisionCache.get env1.now (generateFileHash env1 file)
        ([] : VisionCacheState) = (none, []) := rfl
    simp only [hget]
    rw [if_neg (by simp [ha]), hr, if_neg (by simp [List.isEmpty_iff, hne])]
    rfl
  have h2 : detectProducts env2 [(generateFileHash env1 file, ⟨r, env1.now⟩)] file =
      ⟨.ok r, [(generateFileHash env1 file, ⟨r, env1.now⟩)], false⟩ := by
    simp only [detectProducts]
    rw [if_neg (by simp [hv]), if_neg (by omega)]
    rw [← hhash]
    have hget : VisionCache.get env2.now (generateFileHash env1 file)
        [(generateFileHash env1 file, ⟨r, env1.now⟩)] =
        (some r, [(generateFileHash env1 file, ⟨r, env1.now⟩)]) :=
      get_hit (e := ⟨r, env1.now⟩) (by simp [mapGet])
        (by show env2.now - env1.now < VisionCache.TTL; omega)
    simp only [hget]
  have hc : (detectProducts env1 [] file).cache =
      [(generateFileHash env1 file, ⟨r, env1.now⟩)] := by simp only [h1]
  refine ⟨by simp only [h1], by simp only [h1], ?_, ?_, ?_⟩
  · simp only [hc, h2]
  · simp only [hc, h2]
  · simp only [hc, h2]

/-- Witness for C9: two concrete calls on the same bytes — the first stores
the primary tier's result, the second is served from the cache 1000ms later
with no provider contact. -/
theorem claims_C9_witness :
    (detectProducts witnessEnvA [] witnessFile).result = .ok witnessResult ∧
    (detectProducts witnessEnvA [] witnessFile).providerCalled = true ∧
    (detectProducts witnessEnv2 (detectProducts witnessEnvA [] witnessFile).cache
        witnessFile).result = .ok witnessResult ∧
    (detectProducts witnessEnv2 (detectProducts witnessEnvA [] witnessFile).cache
        witnessFile).providerCalled = false ∧
    (detectProducts witnessEnv2 (detectProducts witnessEnvA [] witnessFile).cache
        witnessFile).cache = (detectProducts witnessEnvA [] witnessFile).cache :=
  (claims_C9 witnessEnvA witnessEnv2 witnessFile witnessResult rfl rfl rfl).2
    (by decide) (by decide) rfl (by decide) (by decide) (by decide)

end ClaimTheorems

end ChefsEye
